import Mathlib

/-!
Verification of the zkSync full-exit state-transition handler
(src/core/lib/state/src/handler/full_exit.rs) and the Ethereum
priority-operation watcher client
(src/core/bin/zksync_core/src/eth_watch/client.rs), shallowly embedded
in Lean 4.

Machine integers (u32 token ids, account ids) and arbitrary-precision
BigUint balances are modelled as Nat; addresses (H160) and hashes (H256)
are modelled as Nat as well, since only equality on them is used.
Rust panics (assert!, expect, BigUint subtraction underflow) and
recoverable anyhow errors are distinguished by the Outcome type.
-/

namespace ZkSync

/-- Outcome of a fallible Rust computation: a returned value, a
recoverable error value (anyhow::Error), or a process-terminating
panic (assert!, expect, arithmetic underflow). -/
inductive Outcome (α : Type) where
  | ok (a : α)
  | error (msg : String)
  | panic (msg : String)
  deriving DecidableEq

/-- True exactly on the error constructor. -/
def Outcome.isError {α : Type} : Outcome α → Bool
  | .error _ => true
  | _ => false

/-- True exactly on the panic constructor. -/
def Outcome.isPanic {α : Type} : Outcome α → Bool
  | .panic _ => true
  | _ => false

/-- True exactly on the ok constructor. -/
def Outcome.isOk {α : Type} : Outcome α → Bool
  | .ok _ => true
  | _ => false

/-- Association-list lookup by Nat key (first matching entry), the model
of a map keyed by account id or token id. -/
def lookupA {α : Type} (k : Nat) : List (Nat × α) → Option α
  | [] => none
  | (k', v) :: rest => if k' = k then some v else lookupA k rest

/-- Association-list insert-or-replace by Nat key, the model of map
insertion. -/
def insertA {α : Type} (k : Nat) (v : α) : List (Nat × α) → List (Nat × α)
  | [] => [(k, v)]
  | (k', v') :: rest => if k' = k then (k, v) :: rest else (k', v') :: insertA k v rest

/-- Modelled from the spec: the reserved threshold at or above which a
token id denotes a non-fungible asset (zksync_crypto::params::MIN_NFT_TOKEN_ID,
declared outside the provided sources). -/
def MIN_NFT_TOKEN_ID : Nat := 65536

/-- Modelled from the spec: the largest token id the contract may emit
(zksync_crypto::params::max_token_id, declared outside the provided
sources); NFT token ids live between MIN_NFT_TOKEN_ID and this bound. -/
def max_token_id : Nat := 2147483645

/-- The FullExit priority-operation payload: target account id, claimed
owner address, token id (src: zksync_types::FullExit, fields used by
full_exit.rs). -/
structure FullExit where
  account_id : Nat
  eth_address : Nat
  token : Nat
  deriving DecidableEq

/-- Modelled from the spec: one NFT registry record, keyed by token id:
creator account id, serial id, content hash. -/
structure NFT where
  creator_id : Nat
  serial_id : Nat
  content_hash : Nat
  deriving DecidableEq

/-- Modelled from the spec: a mutable ledger row: owning address,
monotonic nonce, and the token-id-to-balance mapping (non-negative
arbitrary-precision balances, absent entries read as zero). -/
structure Account where
  address : Nat
  nonce : Nat
  balances : List (Nat × Nat)
  deriving DecidableEq

/-- Modelled from the spec: reading a token balance returns the stored
value or zero when no entry exists (Account::get_balance). -/
def Account.get_balance (a : Account) (token : Nat) : Nat :=
  (lookupA token a.balances).getD 0

/-- Modelled from the spec: subtracting an amount from a token balance;
balances are non-negative, so subtracting more than the stored balance
is an arithmetic underflow, a Rust panic, modelled as none
(Account::sub_balance). -/
def Account.sub_balance (a : Account) (token : Nat) (amount : Nat) : Option Account :=
  let balance := a.get_balance token
  if amount ≤ balance then
    some { a with balances := insertA token (balance - amount) a.balances }
  else
    none

/-- The in-memory account ledger: the account map and the NFT registry
(the parts of ZkSyncState read by the full-exit handler; the interface
get_account / insert_account / nfts is consumed by full_exit.rs). -/
structure ZkSyncState where
  accounts : List (Nat × Account)
  nfts : List (Nat × NFT)
  deriving DecidableEq

/-- Modelled from the spec: optional account lookup by id
(ZkSyncState::get_account). -/
def ZkSyncState.get_account (s : ZkSyncState) (id : Nat) : Option Account :=
  lookupA id s.accounts

/-- Modelled from the spec: store an account row under an id
(ZkSyncState::insert_account). -/
def ZkSyncState.insert_account (s : ZkSyncState) (id : Nat) (a : Account) : ZkSyncState :=
  { s with accounts := insertA id a s.accounts }

/-- The canonical record of one applied full exit: the original request,
the computed withdrawal amount (absent when the exit moved no funds),
and the NFT metadata when the token is an NFT
(src: zksync_types::FullExitOp, fields set by full_exit.rs). -/
structure FullExitOp where
  priority_op : FullExit
  withdraw_amount : Option Nat
  creator_account_id : Option Nat
  serial_id : Option Nat
  content_hash : Option Nat
  deriving DecidableEq

/-- One append-only balance-delta audit record: token id, balance
before and after, nonce before and after
(src: zksync_types::AccountUpdate::UpdateBalance). -/
inductive AccountUpdate where
  | UpdateBalance (token : Nat) (old_balance : Nat) (new_balance : Nat)
      (old_nonce : Nat) (new_nonce : Nat)
  deriving DecidableEq

/-- Modelled from the spec: a fee collected by an operation (always
absent for full exits). -/
structure CollectedFee where
  token : Nat
  amount : Nat
  deriving DecidableEq

/-- The executed-operation wrapper appended to the block operation log;
only the FullExit variant is produced by this handler
(src: zksync_types::ZkSyncOp). -/
inductive ZkSyncOp where
  | FullExit (op : FullExitOp)
  deriving DecidableEq

/-- Result record of apply_tx: collected fee, account updates, and the
executed-operation record (src: crate::state::OpSuccess). -/
structure OpSuccess where
  fee : Option CollectedFee
  updates : List (Nat × AccountUpdate)
  executed_op : ZkSyncOp
  deriving DecidableEq

/-- TxHandler::create_op for FullExit (full_exit.rs lines 17-54):
asserts the token id is in the contract-enforced range, looks the
account up by id, keeps its balance only when the recorded address
equals the claimed address, and, for NFT-range tokens, attaches the
registry record or fails with the missing-NFT error. Pure: no
mutation of the ledger. -/
def create_op (s : ZkSyncState) (priority_op : FullExit) : Outcome FullExitOp :=
  if priority_op.token ≤ max_token_id then
    let account_balance :=
      (((s.get_account priority_op.account_id).filter
          (fun account => account.address == priority_op.eth_address)).map
        (fun account => account.get_balance priority_op.token))
    if MIN_NFT_TOKEN_ID ≤ priority_op.token then
      match lookupA priority_op.token s.nfts with
      | none => .error "NFT for full exit does not exist"
      | some nft =>
          .ok { priority_op := priority_op
                withdraw_amount := account_balance
                creator_account_id := some nft.creator_id
                serial_id := some nft.serial_id
                content_hash := some nft.content_hash }
    else
      .ok { priority_op := priority_op
            withdraw_amount := account_balance
            creator_account_id := none
            serial_id := none
            content_hash := none }
  else
    .panic "Full exit token is out of range, this should be enforced by contract"

/-- TxHandler::apply_op for FullExit (full_exit.rs lines 69-115): with
an absent withdrawal amount, a successful no-op; otherwise reads the
account (expect-panics when missing), subtracts the amount from the
token balance (underflow is a panic), assert-panics unless the
resulting balance is exactly zero, writes the account back and emits
exactly one UpdateBalance record with the nonce unchanged; the fee is
always absent. Returns the updated ledger alongside the fee and
updates. -/
def apply_op (s : ZkSyncState) (op : FullExitOp) :
    Outcome (Option CollectedFee × List (Nat × AccountUpdate) × ZkSyncState) :=
  match op.withdraw_amount with
  | none => .ok (none, [], s)
  | some amount =>
    let account_id := op.priority_op.account_id
    match s.get_account account_id with
    | none => .panic "Full exit account not found"
    | some account =>
      let old_balance := account.get_balance op.priority_op.token
      let old_nonce := account.nonce
      match account.sub_balance op.priority_op.token amount with
      | none => .panic "attempt to subtract with underflow"
      | some account =>
        let new_balance := account.get_balance op.priority_op.token
        if new_balance = 0 then
          let new_nonce := account.nonce
          let s := s.insert_account account_id account
          .ok (none,
               [(account_id,
                 AccountUpdate.UpdateBalance op.priority_op.token old_balance
                   new_balance old_nonce new_nonce)],
               s)
        else
          .panic "Full exit amount is incorrect"

/-- TxHandler::apply_tx for FullExit (full_exit.rs lines 56-67): builds
the op with create_op, applies it with apply_op, and wraps the result
in an OpSuccess whose executed_op is the op tagged as a full exit;
failures of either step propagate. -/
def apply_tx (s : ZkSyncState) (priority_op : FullExit) :
    Outcome (OpSuccess × ZkSyncState) :=
  match create_op s priority_op with
  | .error m => .error m
  | .panic m => .panic m
  | .ok op =>
    match apply_op s op with
    | .error m => .error m
    | .panic m => .panic m
    | .ok (fee, updates, s') =>
        .ok ({ fee := fee, updates := updates,
               executed_op := ZkSyncOp.FullExit op }, s')

/-! The Ethereum watcher client (eth_watch/client.rs). Network I/O is
modelled by passing in the function from a log filter to the list of
logs the node returns for it (the chain state observed by the node),
and decoding is the TryFrom instance passed as a function, mirroring
the generic get_events. -/

/-- A block reference in the chain-native form: a concrete height or a
symbolic tag (src: web3::types::BlockNumber, the variants used here). -/
inductive BlockNumber where
  | Latest
  | Earliest
  | Pending
  | Number (n : Nat)
  deriving DecidableEq

/-- A log filter: contract addresses, inclusive block range, and the
four topic slots (src: web3::types::Filter as built by FilterBuilder
in get_events). -/
structure Filter where
  address : List Nat
  from_block : BlockNumber
  to_block : BlockNumber
  topic0 : Option (List Nat)
  topic1 : Option (List Nat)
  topic2 : Option (List Nat)
  topic3 : Option (List Nat)
  deriving DecidableEq

/-- The event-name-to-signature table resolved once at startup
(client.rs ContractTopics); the resolution from the contract ABI is
outside the provided sources, so the signature hash is a field. -/
structure ContractTopics where
  new_priority_request : Nat
  deriving DecidableEq

/-- Decoding of the fetched logs (client.rs get_events lines 79-88):
the Rust iterator of TryFrom results collected into a Result of a Vec
short-circuits at the first failing log, wrapping its error message;
on success every log is decoded, in order. -/
def collect_events {L T : Type} (try_from : L → Except String T) :
    List L → Except String (List T)
  | [] => .ok []
  | l :: ls =>
    match try_from l with
    | .error e => .error ("Failed to parse event log from ETH: " ++ e)
    | .ok v =>
      match collect_events try_from ls with
      | .error m => .error m
      | .ok vs => .ok (v :: vs)

/-- The filter built by get_events (client.rs lines 72-77): scoped to
the single contract address, the inclusive block range, required
topic-0 values, topics 1-3 unconstrained. -/
def build_filter (contract_address : Nat) (from_block to_block : BlockNumber)
    (topics : List Nat) : Filter :=
  { address := [contract_address]
    from_block := from_block
    to_block := to_block
    topic0 := some topics
    topic1 := none
    topic2 := none
    topic3 := none }

/-- EthHttpClient::get_events (client.rs lines 62-89): builds the
filter scoped to the zkSync contract address and the given topics with
the inclusive block range, fetches the matching logs, and decodes them
all or fails on the first malformed one. The node is the function
chain from a filter to the logs it returns. -/
def get_events {L T : Type} (chain : Filter → List L)
    (contract_address : Nat) (try_from : L → Except String T)
    (from_block to_block : BlockNumber) (topics : List Nat) :
    Except String (List T) :=
  collect_events try_from
    (chain (build_filter contract_address from_block to_block topics))

/-- EthHttpClient::get_priority_op_events (client.rs lines 94-106):
get_events with the single NewPriorityRequest topic. -/
def get_priority_op_events {L T : Type} (chain : Filter → List L)
    (contract_address : Nat) (try_from : L → Except String T)
    (topics : ContractTopics) (from_block to_block : BlockNumber) :
    Except String (List T) :=
  get_events chain contract_address try_from from_block to_block
    [topics.new_priority_request]

/-! Association-list lemmas used by the handler proofs. -/

theorem lookupA_insertA_self {α : Type} (k : Nat) (v : α) (l : List (Nat × α)) :
    lookupA k (insertA k v l) = some v := by
  induction l with
  | nil => simp [insertA, lookupA]
  | cons hd tl ih =>
    obtain ⟨k', v'⟩ := hd
    by_cases h : k' = k
    · simp [insertA, lookupA, h]
    · simp [insertA, lookupA, h, ih]

theorem get_balance_sub_balance_self (a a' : Account) (token amount : Nat)
    (h : a.sub_balance token amount = some a') :
    a'.get_balance token = a.get_balance token - amount := by
  unfold Account.sub_balance at h
  by_cases hle : amount ≤ a.get_balance token
  · simp only [hle, if_true, Option.some.injEq] at h
    subst h
    simp [Account.get_balance, lookupA_insertA_self]
  · simp [hle] at h

theorem sub_balance_isSome (a : Account) (token amount : Nat)
    (h : amount ≤ a.get_balance token) :
    ∃ a', a.sub_balance token amount = some a' := by
  unfold Account.sub_balance
  simp [h]

theorem nonce_sub_balance (a a' : Account) (token amount : Nat)
    (h : a.sub_balance token amount = some a') : a'.nonce = a.nonce := by
  unfold Account.sub_balance at h
  by_cases hle : amount ≤ a.get_balance token
  · simp only [hle, if_true, Option.some.injEq] at h
    subst h
    rfl
  · simp [hle] at h

/-! Helper lemmas about create_op and apply_op. -/

/-- A successful create_op echoes the priority op and records the
withdrawal amount computed by the account lookup, address filter and
balance read. -/
theorem create_op_ok_shape (s : ZkSyncState) (fe : FullExit) (op : FullExitOp)
    (h : create_op s fe = Outcome.ok op) :
    op.priority_op = fe ∧
    op.withdraw_amount =
      (((s.get_account fe.account_id).filter
          (fun account => account.address == fe.eth_address)).map
        (fun account => account.get_balance fe.token)) := by
  unfold create_op at h
  by_cases h1 : fe.token ≤ max_token_id
  · simp only [h1, if_true] at h
    by_cases h2 : MIN_NFT_TOKEN_ID ≤ fe.token
    · simp only [h2, if_true] at h
      cases hn : lookupA fe.token s.nfts with
      | none => rw [hn] at h; exact absurd h (by simp)
      | some nft =>
        rw [hn] at h
        injection h with h'
        subst h'
        exact ⟨rfl, rfl⟩
    · simp only [h2, if_false] at h
      injection h with h'
      subst h'
      exact ⟨rfl, rfl⟩
  · simp [h1] at h

/-- When the account exists and its address matches, the filtered
balance lookup yields its balance for the token. -/
theorem account_balance_matched (s : ZkSyncState) (fe : FullExit) (acc : Account)
    (hacc : s.get_account fe.account_id = some acc)
    (haddr : acc.address = fe.eth_address) :
    (((s.get_account fe.account_id).filter
        (fun account => account.address == fe.eth_address)).map
      (fun account => account.get_balance fe.token)) =
      some (acc.get_balance fe.token) := by
  rw [hacc]
  simp [Option.filter, haddr]

/-- When the account is missing or its address differs, the filtered
balance lookup yields none. -/
theorem account_balance_unmatched (s : ZkSyncState) (fe : FullExit)
    (h : ∀ acc, s.get_account fe.account_id = some acc →
      acc.address ≠ fe.eth_address) :
    (((s.get_account fe.account_id).filter
        (fun account => account.address == fe.eth_address)).map
      (fun account => account.get_balance fe.token)) = none := by
  cases hacc : s.get_account fe.account_id with
  | none => simp [Option.filter]
  | some acc =>
    have hne := h acc hacc
    simp [Option.filter, hne]

/-- The filtered balance lookup succeeds only for an existing account
with a matching address, and then returns its balance. -/
theorem account_balance_some_inv (s : ZkSyncState) (fe : FullExit) (b : Nat)
    (h : (((s.get_account fe.account_id).filter
        (fun account => account.address == fe.eth_address)).map
      (fun account => account.get_balance fe.token)) = some b) :
    ∃ acc, s.get_account fe.account_id = some acc ∧
      acc.address = fe.eth_address ∧ b = acc.get_balance fe.token := by
  cases hacc : s.get_account fe.account_id with
  | none => rw [hacc] at h; simp [Option.filter] at h
  | some acc =>
    rw [hacc] at h
    by_cases haddr : acc.address = fe.eth_address
    · refine ⟨acc, rfl, haddr, ?_⟩
      simp [Option.filter, haddr] at h
      exact h.symm
    · simp [Option.filter, haddr] at h

/-- Applying an op whose withdrawal amount is exactly the present
balance of an existing account drains the balance to zero: no fee, one
UpdateBalance record with unchanged nonce, and the drained account
written back. -/
theorem apply_op_full_drain (s : ZkSyncState) (op : FullExitOp) (acc : Account)
    (hacc : s.get_account op.priority_op.account_id = some acc)
    (hamt : op.withdraw_amount = some (acc.get_balance op.priority_op.token)) :
    apply_op s op =
      Outcome.ok (none,
        [(op.priority_op.account_id,
          AccountUpdate.UpdateBalance op.priority_op.token
            (acc.get_balance op.priority_op.token) 0 acc.nonce acc.nonce)],
        s.insert_account op.priority_op.account_id
          { acc with balances := insertA op.priority_op.token 0 acc.balances }) := by
  simp [apply_op, hamt, hacc, Account.sub_balance, Account.get_balance,
    lookupA_insertA_self]

/-- Applying an op with an absent withdrawal amount is a successful
no-op on the unchanged ledger. -/
theorem apply_op_none (t : ZkSyncState) (o : FullExitOp)
    (hwa : o.withdraw_amount = none) :
    apply_op t o = Outcome.ok (none, [], t) := by
  simp [apply_op, hwa]

/-- Applying an op with a present withdrawal amount for a missing
account hits the missing-account expect. -/
theorem apply_op_no_account (t : ZkSyncState) (o : FullExitOp) (a : Nat)
    (hwa : o.withdraw_amount = some a)
    (hacc : t.get_account o.priority_op.account_id = none) :
    apply_op t o = Outcome.panic "Full exit account not found" := by
  simp [apply_op, hwa, hacc]

/-- Applying an op whose withdrawal amount exceeds the stored balance
hits the balance-subtraction underflow. -/
theorem apply_op_underflow (t : ZkSyncState) (o : FullExitOp) (a : Nat)
    (acc : Account) (hwa : o.withdraw_amount = some a)
    (hacc : t.get_account o.priority_op.account_id = some acc)
    (hgt : acc.get_balance o.priority_op.token < a) :
    apply_op t o = Outcome.panic "attempt to subtract with underflow" := by
  have hle : ¬ a ≤ acc.get_balance o.priority_op.token := Nat.not_le.mpr hgt
  simp [apply_op, hwa, hacc, Account.sub_balance, hle]

/-- Applying an op whose withdrawal amount is strictly less than the
stored balance leaves a nonzero balance and hits the fatal
post-subtraction assertion. -/
theorem apply_op_nonzero_remainder (t : ZkSyncState) (o : FullExitOp) (a : Nat)
    (acc : Account) (hwa : o.withdraw_amount = some a)
    (hacc : t.get_account o.priority_op.account_id = some acc)
    (hlt : a < acc.get_balance o.priority_op.token) :
    apply_op t o = Outcome.panic "Full exit amount is incorrect" := by
  have hle : a ≤ (lookupA o.priority_op.token acc.balances).getD 0 :=
    le_of_lt hlt
  have hnz : ¬ ((lookupA o.priority_op.token acc.balances).getD 0 - a = 0) :=
    Nat.sub_ne_zero_of_lt hlt
  simp [apply_op, hwa, hacc, Account.sub_balance, Account.get_balance, hle,
    lookupA_insertA_self, hnz]

/-! Concrete states used to instantiate the theorems (the spec's
concrete scenario: account 7, address 0xAA, token 5, balance 1000). -/

/-- Account 7 of the concrete scenario: address 0xAA (170), nonce 3,
balance 1000 of token 5. -/
def accA : Account := { address := 170, nonce := 3, balances := [(5, 1000)] }

/-- Ledger holding only account 7, with an empty NFT registry. -/
def ledger0 : ZkSyncState := { accounts := [(7, accA)], nfts := [] }

/-- The matching full exit of the concrete scenario. -/
def fullExitA : FullExit := { account_id := 7, eth_address := 170, token := 5 }

/-- The op create_op builds for fullExitA on ledger0. -/
def opA : FullExitOp :=
  { priority_op := fullExitA, withdraw_amount := some 1000,
    creator_account_id := none, serial_id := none, content_hash := none }

/-- The empty ledger. -/
def ledgerEmpty : ZkSyncState := { accounts := [], nfts := [] }

/-- A full exit naming an NFT-range token (the NFT threshold itself). -/
def nftExit : FullExit := { account_id := 0, eth_address := 0, token := 65536 }

/-! The claims. -/

/-- Claim C1: for every full exit where the ledger has an account at
the given id whose recorded owner address equals the claimed address,
apply_op on the op built by create_op drains the account's balance for
the exit's token to exactly zero, emits exactly one AccountUpdate with
old balance equal to the pre-call balance and new balance zero, leaves
the nonce unchanged, and returns no collected fee. -/
theorem c1_matched_full_exit_drains_to_zero
    (s : ZkSyncState) (fe : FullExit) (acc : Account) (op : FullExitOp)
    (hacc : s.get_account fe.account_id = some acc)
    (haddr : acc.address = fe.eth_address)
    (hop : create_op s fe = Outcome.ok op) :
    ∃ s' : ZkSyncState,
      apply_op s op =
        Outcome.ok (none,
          [(fe.account_id,
            AccountUpdate.UpdateBalance fe.token (acc.get_balance fe.token) 0
              acc.nonce acc.nonce)], s') ∧
      (s'.get_account fe.account_id).map (fun a => a.get_balance fe.token) =
        some 0 ∧
      (s'.get_account fe.account_id).map Account.nonce = some acc.nonce := by
  obtain ⟨hpr, hamt⟩ := create_op_ok_shape s fe op hop
  rw [account_balance_matched s fe acc hacc haddr] at hamt
  refine ⟨s.insert_account fe.account_id
    { acc with balances := insertA fe.token 0 acc.balances }, ?_, ?_, ?_⟩
  · have := apply_op_full_drain s op acc (by rw [hpr]; exact hacc) (by rw [hpr]; exact hamt)
    rw [hpr] at this
    exact this
  · simp [ZkSyncState.insert_account, ZkSyncState.get_account,
      lookupA_insertA_self, Account.get_balance]
  · simp [ZkSyncState.insert_account, ZkSyncState.get_account,
      lookupA_insertA_self]

/-- Claim C1 witness: the concrete scenario of the spec, account 7
with balance 1000 of token 5 fully drained. -/
theorem c1_witness :
    ∃ s' : ZkSyncState,
      apply_op ledger0 opA =
        Outcome.ok (none,
          [(7, AccountUpdate.UpdateBalance 5 1000 0 3 3)], s') ∧
      (s'.get_account 7).map (fun a => a.get_balance 5) = some 0 ∧
      (s'.get_account 7).map Account.nonce = some 3 :=
  c1_matched_full_exit_drains_to_zero ledger0 fullExitA accA opA
    (by rfl) (by rfl) (by rfl)

/-- Claim C2: for every FullExitOp produced by a successful create_op
on a ledger, apply_op on that same unchanged ledger returns
successfully, so the fatal post-subtraction assertion (and every other
panic branch of apply_op) is unreachable under this precondition. -/
theorem c2_create_then_apply_never_panics
    (s : ZkSyncState) (fe : FullExit) (op : FullExitOp)
    (hop : create_op s fe = Outcome.ok op) :
    ∃ r, apply_op s op = Outcome.ok r := by
  obtain ⟨hpr, hamt⟩ := create_op_ok_shape s fe op hop
  cases hwa : op.withdraw_amount with
  | none => exact ⟨(none, [], s), by simp [apply_op, hwa]⟩
  | some b =>
    obtain ⟨acc, hacc, haddr, hb⟩ :=
      account_balance_some_inv s fe b (hamt.symm.trans hwa)
    subst hb
    exact ⟨_, apply_op_full_drain s op acc (by rw [hpr]; exact hacc)
      (by rw [hpr]; exact hwa)⟩

/-- Claim C2 witness: on the concrete scenario ledger, apply_op of the
created op succeeds. -/
theorem c2_witness : ∃ r, apply_op ledger0 opA = Outcome.ok r :=
  c2_create_then_apply_never_panics ledger0 fullExitA opA (by rfl)

/-- Claim C3 counterexample: with no account at the given id but an
NFT-range token absent from the registry, create_op returns the
missing-NFT error instead of an op with absent withdrawal amount, so
the claim as stated (create_op yields an op for every such exit) is
false. -/
theorem c3_counterexample :
    ledgerEmpty.get_account nftExit.account_id = none ∧
    create_op ledgerEmpty nftExit =
      Outcome.error "NFT for full exit does not exist" := ⟨rfl, rfl⟩

/-- Claim C3 (amended): for every full exit where the ledger has no
account at the given id, or the account's recorded address differs
from the claimed address, whenever create_op succeeds (which it does
exactly when the token is valid and, for NFT-range tokens, registered)
the produced op has an absent withdrawal amount, and apply_op on that
op returns success with an empty update list and the ledger completely
unchanged. -/
theorem c3_unmatched_full_exit_is_noop
    (s : ZkSyncState) (fe : FullExit) (op : FullExitOp)
    (hmiss : ∀ acc, s.get_account fe.account_id = some acc →
      acc.address ≠ fe.eth_address)
    (hop : create_op s fe = Outcome.ok op) :
    op.withdraw_amount = none ∧
    apply_op s op = Outcome.ok (none, [], s) := by
  obtain ⟨hpr, hamt⟩ := create_op_ok_shape s fe op hop
  rw [account_balance_unmatched s fe hmiss] at hamt
  exact ⟨hamt, by simp [apply_op, hamt]⟩

/-- Claim C3 witness: a full exit for a fungible token on the empty
ledger is a successful no-op. -/
theorem c3_witness :
    (create_op ledgerEmpty
      { account_id := 0, eth_address := 0, token := 5 } =
        Outcome.ok
          { priority_op := { account_id := 0, eth_address := 0, token := 5 },
            withdraw_amount := none, creator_account_id := none,
            serial_id := none, content_hash := none }) ∧
    ({ priority_op := { account_id := 0, eth_address := 0, token := 5 },
       withdraw_amount := none, creator_account_id := none,
       serial_id := none, content_hash := none} : FullExitOp).withdraw_amount
      = none ∧
    apply_op ledgerEmpty
      { priority_op := { account_id := 0, eth_address := 0, token := 5 },
        withdraw_amount := none, creator_account_id := none,
        serial_id := none, content_hash := none } =
      Outcome.ok (none, [], ledgerEmpty) :=
  ⟨rfl,
   c3_unmatched_full_exit_is_noop ledgerEmpty
     { account_id := 0, eth_address := 0, token := 5 }
     { priority_op := { account_id := 0, eth_address := 0, token := 5 },
       withdraw_amount := none, creator_account_id := none,
       serial_id := none, content_hash := none }
     (fun acc h => Option.noConfusion h) (by rfl)⟩

/-- A full exit naming a token above max_token_id (still an NFT-range
id, with no registry record). -/
def outOfRangeExit : FullExit :=
  { account_id := 0, eth_address := 0, token := 2147483646 }

/-- Claim C4 counterexample: a token at or above the NFT threshold
with no registry record, but above max_token_id, makes create_op hit
the out-of-range assertion (a panic) instead of returning an error
value, so the stated if-and-only-if fails in the forward direction. -/
theorem c4_counterexample :
    MIN_NFT_TOKEN_ID ≤ outOfRangeExit.token ∧
    lookupA outOfRangeExit.token ledgerEmpty.nfts = none ∧
    (create_op ledgerEmpty outOfRangeExit).isError = false ∧
    create_op ledgerEmpty outOfRangeExit =
      Outcome.panic
        "Full exit token is out of range, this should be enforced by contract" :=
  ⟨by decide, rfl, rfl, rfl⟩

/-- Claim C4 (amended): create_op returns an error value if and only
if the token id is within the contract-enforced range (at most
max_token_id), at or above the NFT threshold, and the NFT registry has
no record for it — regardless of whether the account exists or its
address matches; the error is always the missing-NFT message. Tokens
above max_token_id instead hit the out-of-range assertion, which is a
panic, not a returned error value. -/
theorem c4_error_iff_missing_nft (s : ZkSyncState) (fe : FullExit) :
    ((create_op s fe).isError = true ↔
      fe.token ≤ max_token_id ∧ MIN_NFT_TOKEN_ID ≤ fe.token ∧
        lookupA fe.token s.nfts = none) ∧
    ((create_op s fe).isError = true →
      create_op s fe = Outcome.error "NFT for full exit does not exist") := by
  unfold create_op
  by_cases h1 : fe.token ≤ max_token_id
  · by_cases h2 : MIN_NFT_TOKEN_ID ≤ fe.token
    · cases hn : lookupA fe.token s.nfts with
      | none => simp [h1, h2, hn, Outcome.isError]
      | some nft => simp [h1, h2, hn, Outcome.isError]
    · simp [h1, h2, Outcome.isError]
  · simp [h1, Outcome.isError]

/-- Claim C4 witness: on the empty ledger, a full exit of the
threshold NFT token id (in range, unregistered) is an error, and an
account-holding ledger changes nothing about that. -/
theorem c4_witness :
    create_op ledgerEmpty nftExit =
      Outcome.error "NFT for full exit does not exist" :=
  (c4_error_iff_missing_nft ledgerEmpty nftExit).2 rfl

/-- A FullExitOp that no create_op on the empty ledger produced: a
present withdrawal amount for a missing account. -/
def orphanOp : FullExitOp :=
  { priority_op := { account_id := 1, eth_address := 2, token := 3 },
    withdraw_amount := some 5, creator_account_id := none,
    serial_id := none, content_hash := none }

/-- Claim C5 counterexample: apply_op on an op with a present
withdrawal amount whose account is missing panics with the
missing-account expect — a third failure beyond the two conditions the
claim lists (missing NFT record; nonzero post-subtraction balance), so
the stated totality fails. -/
theorem c5_counterexample :
    apply_op ledgerEmpty orphanOp =
      Outcome.panic "Full exit account not found" := rfl

/-- Claim C5 (amended): the three operations are synchronous and
total, with their failure conditions exactly characterized: create_op
panics exactly on tokens above max_token_id (the out-of-range
assertion) and errors exactly on in-range NFT-range tokens missing
from the registry; apply_op never returns an error value and panics
exactly when the op carries a present withdrawal amount that is not
the exact balance of an existing account (missing account, subtraction
underflow, or nonzero post-subtraction balance); apply_tx errors
exactly when create_op errors and panics exactly when create_op panics
or the created op makes apply_op panic. -/
theorem c5_failure_characterization (s : ZkSyncState) (fe : FullExit)
    (op : FullExitOp) :
    ((create_op s fe).isPanic = true ↔ max_token_id < fe.token) ∧
    ((create_op s fe).isError = true ↔
      fe.token ≤ max_token_id ∧ MIN_NFT_TOKEN_ID ≤ fe.token ∧
        lookupA fe.token s.nfts = none) ∧
    ((apply_op s op).isError = false) ∧
    ((apply_op s op).isPanic = true ↔
      ∃ a, op.withdraw_amount = some a ∧
        ∀ acc, s.get_account op.priority_op.account_id = some acc →
          a ≠ acc.get_balance op.priority_op.token) ∧
    ((apply_tx s fe).isError = true ↔ (create_op s fe).isError = true) ∧
    ((apply_tx s fe).isPanic = true ↔
      ((create_op s fe).isPanic = true ∨
        ∃ op', create_op s fe = Outcome.ok op' ∧
          (apply_op s op').isPanic = true)) := by
  have hpanic : (create_op s fe).isPanic = true ↔ max_token_id < fe.token := by
    unfold create_op
    by_cases h1 : fe.token ≤ max_token_id
    · by_cases h2 : MIN_NFT_TOKEN_ID ≤ fe.token
      · cases hn : lookupA fe.token s.nfts with
        | none => simp [h1, h2, hn, Outcome.isPanic, Nat.not_lt.mpr h1]
        | some nft => simp [h1, h2, hn, Outcome.isPanic, Nat.not_lt.mpr h1]
      · simp [h1, h2, Outcome.isPanic, Nat.not_lt.mpr h1]
    · simp [h1, Outcome.isPanic, Nat.lt_of_not_le h1]
  have happly : ∀ (t : ZkSyncState) (o : FullExitOp),
      (apply_op t o).isError = false ∧
      ((apply_op t o).isPanic = true ↔
        ∃ a, o.withdraw_amount = some a ∧
          ∀ acc, t.get_account o.priority_op.account_id = some acc →
            a ≠ acc.get_balance o.priority_op.token) := by
    intro t o
    cases hwa : o.withdraw_amount with
    | none =>
      rw [apply_op_none t o hwa]
      refine ⟨rfl, ?_, ?_⟩
      · intro h; exact absurd h (by simp [Outcome.isPanic])
      · rintro ⟨a, hwa', _⟩
        exact Option.noConfusion hwa'
    | some a =>
      cases hacc : t.get_account o.priority_op.account_id with
      | none =>
        rw [apply_op_no_account t o a hwa hacc]
        refine ⟨rfl, fun _ => ⟨a, rfl, fun acc h =>
          Option.noConfusion h⟩, fun _ => rfl⟩
      | some acc =>
        rcases Nat.lt_trichotomy a (acc.get_balance o.priority_op.token) with
          hlt | heq | hgt
        · rw [apply_op_nonzero_remainder t o a acc hwa hacc hlt]
          refine ⟨rfl, fun _ => ⟨a, rfl, fun acc' h' => ?_⟩, fun _ => rfl⟩
          have he : acc = acc' := by injection h'
          subst he
          exact Nat.ne_of_lt hlt
        · rw [apply_op_full_drain t o acc hacc (heq ▸ hwa)]
          refine ⟨rfl, ?_, ?_⟩
          · intro h; exact absurd h (by simp [Outcome.isPanic])
          · rintro ⟨a', hwa', hall⟩
            have ha' : a = a' := by injection hwa'
            subst ha'
            exact absurd heq (hall acc rfl)
        · rw [apply_op_underflow t o a acc hwa hacc hgt]
          refine ⟨rfl, fun _ => ⟨a, rfl, fun acc' h' => ?_⟩, fun _ => rfl⟩
          have he : acc = acc' := by injection h'
          subst he
          exact (Nat.ne_of_lt hgt).symm
  refine ⟨hpanic, (c4_error_iff_missing_nft s fe).1, (happly s op).1,
    (happly s op).2, ?_, ?_⟩
  · cases hc : create_op s fe with
    | ok op' =>
      cases ha : apply_op s op' with
      | ok r =>
        obtain ⟨fee, updates, s'⟩ := r
        simp [apply_tx, hc, ha, Outcome.isError]
      | error m =>
        have h1 := (happly s op').1
        rw [ha] at h1
        exact absurd h1 (by simp [Outcome.isError])
      | panic m =>
        simp [apply_tx, hc, ha, Outcome.isError]
    | error m => simp [apply_tx, hc, Outcome.isError]
    | panic m => simp [apply_tx, hc, Outcome.isError]
  · cases hc : create_op s fe with
    | ok op' =>
      cases ha : apply_op s op' with
      | ok r =>
        obtain ⟨fee, updates, s'⟩ := r
        have hfalse : (apply_tx s fe).isPanic = false := by
          simp [apply_tx, hc, ha, Outcome.isPanic]
        refine ⟨?_, ?_⟩
        · intro h
          rw [h] at hfalse
          exact absurd hfalse (by simp)
        · rintro (h | ⟨op'', hop'', hp⟩)
          · exact absurd h (by simp [Outcome.isPanic])
          · have he : op' = op'' := by injection hop''
            subst he
            rw [ha] at hp
            exact absurd hp (by simp [Outcome.isPanic])
      | error m =>
        have h1 := (happly s op').1
        rw [ha] at h1
        exact absurd h1 (by simp [Outcome.isError])
      | panic m =>
        have htx : apply_tx s fe = Outcome.panic m := by
          simp [apply_tx, hc, ha]
        rw [htx]
        exact ⟨fun _ => Or.inr ⟨op', rfl, by rw [ha]; rfl⟩, fun _ => rfl⟩
    | error m =>
      have htx : apply_tx s fe = Outcome.error m := by
        simp [apply_tx, hc]
      rw [htx]
      refine ⟨?_, ?_⟩
      · intro h; exact absurd h (by simp [Outcome.isPanic])
      · rintro (h | ⟨op'', hop'', _⟩)
        · exact h
        · exact Outcome.noConfusion hop''
    | panic m =>
      have htx : apply_tx s fe = Outcome.panic m := by
        simp [apply_tx, hc]
      rw [htx]
      exact ⟨fun _ => Or.inl rfl, fun _ => rfl⟩

/-- Claim C6: apply_tx returns exactly the fee and updates of apply_op
applied to the op produced by create_op on the same ledger,
propagating failures of either step, and records the executed
operation as that same op wrapped and tagged as a full exit. -/
theorem c6_apply_tx_is_create_then_apply (s : ZkSyncState) (fe : FullExit) :
    (∀ m, create_op s fe = Outcome.error m → apply_tx s fe = Outcome.error m) ∧
    (∀ m, create_op s fe = Outcome.panic m → apply_tx s fe = Outcome.panic m) ∧
    (∀ op, create_op s fe = Outcome.ok op →
      ((∀ m, apply_op s op = Outcome.error m →
          apply_tx s fe = Outcome.error m) ∧
       (∀ m, apply_op s op = Outcome.panic m →
          apply_tx s fe = Outcome.panic m) ∧
       (∀ fee updates s', apply_op s op = Outcome.ok (fee, updates, s') →
          apply_tx s fe =
            Outcome.ok ({ fee := fee, updates := updates,
                          executed_op := ZkSyncOp.FullExit op }, s')))) := by
  refine ⟨?_, ?_, ?_⟩
  · intro m h; simp [apply_tx, h]
  · intro m h; simp [apply_tx, h]
  · intro op hok
    refine ⟨?_, ?_, ?_⟩
    · intro m h; simp [apply_tx, hok, h]
    · intro m h; simp [apply_tx, hok, h]
    · intro fee updates s' h; simp [apply_tx, hok, h]

/-- The ledger after fully draining account 7 of token 5 in the
concrete scenario. -/
def ledger0Drained : ZkSyncState :=
  { accounts := [(7, { address := 170, nonce := 3, balances := [(5, 0)] })],
    nfts := [] }

/-- Claim C6 witness: on the concrete scenario, apply_tx produces the
fee and updates of apply_op on the created op, wrapped with that op as
the executed full exit. -/
theorem c6_witness :
    apply_tx ledger0 fullExitA =
      Outcome.ok
        ({ fee := none,
           updates := [(7, AccountUpdate.UpdateBalance 5 1000 0 3 3)],
           executed_op := ZkSyncOp.FullExit opA }, ledger0Drained) :=
  ((c6_apply_tx_is_create_then_apply ledger0 fullExitA).2.2 opA (by rfl)).2.2
    none [(7, AccountUpdate.UpdateBalance 5 1000 0 3 3)] ledger0Drained (by rfl)

/-- Claim C7: for every full exit whose token id is at or above the
NFT threshold, when an NFT record exists and create_op returns an op,
the op carries exactly the registry record's creator account id,
serial id and content hash; for tokens below the threshold all three
fields are absent. -/
theorem c7_nft_metadata_propagated (s : ZkSyncState) (fe : FullExit)
    (nft : NFT) (op : FullExitOp) :
    (MIN_NFT_TOKEN_ID ≤ fe.token → lookupA fe.token s.nfts = some nft →
      create_op s fe = Outcome.ok op →
      op.creator_account_id = some nft.creator_id ∧
      op.serial_id = some nft.serial_id ∧
      op.content_hash = some nft.content_hash) ∧
    (fe.token < MIN_NFT_TOKEN_ID → create_op s fe = Outcome.ok op →
      op.creator_account_id = none ∧ op.serial_id = none ∧
      op.content_hash = none) := by
  constructor
  · intro h2 hn hok
    unfold create_op at hok
    by_cases h1 : fe.token ≤ max_token_id
    · simp only [h1, if_true, h2, hn] at hok
      injection hok with h'
      subst h'
      exact ⟨rfl, rfl, rfl⟩
    · simp [h1] at hok
  · intro h2 hok
    have h2' : ¬ MIN_NFT_TOKEN_ID ≤ fe.token := Nat.not_le.mpr h2
    unfold create_op at hok
    by_cases h1 : fe.token ≤ max_token_id
    · simp only [h1, if_true, h2', if_false] at hok
      injection hok with h'
      subst h'
      exact ⟨rfl, rfl, rfl⟩
    · simp [h1] at hok

/-- The NFT registry record used by the C7 witness. -/
def nftRec : NFT := { creator_id := 9, serial_id := 4, content_hash := 77 }

/-- A ledger whose NFT registry holds the threshold token id. -/
def ledgerNft : ZkSyncState := { accounts := [], nfts := [(65536, nftRec)] }

/-- The op create_op builds for nftExit on ledgerNft. -/
def opNft : FullExitOp :=
  { priority_op := nftExit, withdraw_amount := none,
    creator_account_id := some 9, serial_id := some 4,
    content_hash := some 77 }

/-- Claim C7 witness: the registry record's fields are carried
unchanged on a concrete NFT full exit. -/
theorem c7_witness :
    opNft.creator_account_id = some nftRec.creator_id ∧
    opNft.serial_id = some nftRec.serial_id ∧
    opNft.content_hash = some nftRec.content_hash :=
  (c7_nft_metadata_propagated ledgerNft nftExit nftRec opNft).1
    (by decide) (by rfl) (by rfl)

/-- Claim C10: when the account exists, its address matches, and its
balance for the token is already zero, create_op records the
withdrawal amount as present (not absent) — in general equal to the
current balance, hence zero here — and apply_op still emits exactly
one AccountUpdate with old and new balance both zero and the nonce
unchanged. -/
theorem c10_zero_balance_exit_still_updates (s : ZkSyncState) (fe : FullExit)
    (acc : Account) (op : FullExitOp)
    (hacc : s.get_account fe.account_id = some acc)
    (haddr : acc.address = fe.eth_address)
    (hop : create_op s fe = Outcome.ok op) :
    op.withdraw_amount = some (acc.get_balance fe.token) ∧
    (acc.get_balance fe.token = 0 →
      ∃ s', apply_op s op =
        Outcome.ok (none,
          [(fe.account_id,
            AccountUpdate.UpdateBalance fe.token 0 0 acc.nonce acc.nonce)],
          s')) := by
  obtain ⟨hpr, hamt⟩ := create_op_ok_shape s fe op hop
  rw [account_balance_matched s fe acc hacc haddr] at hamt
  refine ⟨hamt, ?_⟩
  intro hz
  obtain ⟨s', hok, _, _⟩ :=
    c1_matched_full_exit_drains_to_zero s fe acc op hacc haddr hop
  exact ⟨s', by rw [hok, hz]⟩

/-- The zero-balance account of the C10 witness. -/
def accZ : Account := { address := 170, nonce := 1, balances := [] }

/-- Ledger holding only the zero-balance account 2. -/
def ledgerZ : ZkSyncState := { accounts := [(2, accZ)], nfts := [] }

/-- A matching full exit for the zero-balance account. -/
def fullExitZ : FullExit := { account_id := 2, eth_address := 170, token := 9 }

/-- The op create_op builds for fullExitZ on ledgerZ: the withdrawal
amount is present and zero. -/
def opZ : FullExitOp :=
  { priority_op := fullExitZ, withdraw_amount := some 0,
    creator_account_id := none, serial_id := none, content_hash := none }

/-- Claim C10 witness: a zero-balance matching exit records a present
zero withdrawal amount and still emits one update. -/
theorem c10_witness :
    opZ.withdraw_amount = some 0 ∧
    ∃ s', apply_op ledgerZ opZ =
      Outcome.ok (none,
        [(2, AccountUpdate.UpdateBalance 9 0 0 1 1)], s') := by
  have h := c10_zero_balance_exit_still_updates ledgerZ fullExitZ accZ opZ
    (by rfl) (by rfl) (by rfl)
  exact ⟨h.1, h.2 rfl⟩

/-! Lemmas about the log-decoding collection. -/

/-- If any fetched log fails to decode, the whole collection fails. -/
theorem collect_events_error {L T : Type} (try_from : L → Except String T)
    (logs : List L) (l : L) (hl : l ∈ logs) (e : String)
    (he : try_from l = Except.error e) :
    ∃ m, collect_events try_from logs = Except.error m := by
  induction logs with
  | nil => cases hl
  | cons hd tl ih =>
    cases hf : try_from hd with
    | error e' =>
      exact ⟨"Failed to parse event log from ETH: " ++ e',
        by simp [collect_events, hf]⟩
    | ok v =>
      cases hl with
      | head =>
        rw [hf] at he
        exact Except.noConfusion he
      | tail _ htl =>
        obtain ⟨m, hm⟩ := ih htl
        exact ⟨m, by simp [collect_events, hf, hm]⟩

/-- A successful collection decodes every fetched log, in order, with
none skipped. -/
theorem collect_events_ok {L T : Type} (try_from : L → Except String T)
    (logs : List L) (ops : List T)
    (h : collect_events try_from logs = Except.ok ops) :
    logs.map try_from = ops.map Except.ok := by
  induction logs generalizing ops with
  | nil =>
    simp [collect_events] at h
    subst h
    simp
  | cons hd tl ih =>
    cases hf : try_from hd with
    | error e => simp [collect_events, hf] at h
    | ok v =>
      cases hr : collect_events try_from tl with
      | error m => simp [collect_events, hf, hr] at h
      | ok vs =>
        simp only [collect_events, hf, hr] at h
        injection h with h'
        subst h'
        simp [hf, ih vs hr]

/-- Claim C8: if decoding any single fetched log fails, the whole
get_priority_op_events call fails with a decode error and returns no
partial results; and whenever the call succeeds, every fetched log is
decoded into exactly one returned operation, in order, with none
silently skipped. -/
theorem c8_decode_failure_aborts_whole_call {L T : Type}
    (chain : Filter → List L) (contract_address : Nat)
    (try_from : L → Except String T) (topics : ContractTopics)
    (from_block to_block : BlockNumber) :
    ((∃ l ∈ chain (build_filter contract_address from_block to_block
          [topics.new_priority_request]), ∃ e, try_from l = Except.error e) →
      ∃ m, get_priority_op_events chain contract_address try_from topics
        from_block to_block = Except.error m) ∧
    (∀ ops, get_priority_op_events chain contract_address try_from topics
        from_block to_block = Except.ok ops →
      (chain (build_filter contract_address from_block to_block
          [topics.new_priority_request])).map try_from =
        ops.map Except.ok) := by
  constructor
  · rintro ⟨l, hl, e, he⟩
    exact collect_events_error try_from _ l hl e he
  · intro ops h
    exact collect_events_ok try_from _ ops h

/-- The decoder of the watcher witnesses: log 0 is malformed, every
other log decodes to itself. -/
def demoDecode : Nat → Except String Nat :=
  fun n => if n = 0 then Except.error "bad magic" else Except.ok n

/-- A node answering every filter with the same three logs, the second
malformed. -/
def demoChainBad : Filter → List Nat := fun _ => [1, 0, 2]

/-- A node answering every filter with two well-formed logs. -/
def demoChainGood : Filter → List Nat := fun _ => [3, 4]

/-- A second, separately defined node answering every filter with the
same two logs as demoChainGood. -/
def demoChainGood2 : Filter → List Nat := fun _ => [3, 4]

/-- Claim C8 witness: with one malformed log among three, the whole
call fails with a decode error. -/
theorem c8_witness :
    ∃ m, get_priority_op_events demoChainBad 1 demoDecode
      { new_priority_request := 2 } (BlockNumber.Number 0)
      (BlockNumber.Number 5) = Except.error m :=
  (c8_decode_failure_aborts_whole_call demoChainBad 1 demoDecode
      { new_priority_request := 2 } (BlockNumber.Number 0)
      (BlockNumber.Number 5)).1
    ⟨0, by decide, "bad magic", by rfl⟩

/-- Claim C9: two get_priority_op_events calls with identical
arguments against chain states that return the same logs, in the same
order, for the built filter return identical operation sequences, in
the same order: the result is a deterministic function of the fetched
logs. -/
theorem c9_identical_queries_identical_results {L T : Type}
    (chain1 chain2 : Filter → List L) (contract_address : Nat)
    (try_from : L → Except String T) (topics : ContractTopics)
    (from_block to_block : BlockNumber)
    (h : chain1 (build_filter contract_address from_block to_block
          [topics.new_priority_request]) =
        chain2 (build_filter contract_address from_block to_block
          [topics.new_priority_request])) :
    get_priority_op_events chain1 contract_address try_from topics
      from_block to_block =
    get_priority_op_events chain2 contract_address try_from topics
      from_block to_block := by
  unfold get_priority_op_events get_events
  rw [h]

/-- Claim C9 witness: two separately built nodes returning the same
logs yield the same decoded operation sequence. -/
theorem c9_witness :
    get_priority_op_events demoChainGood 1 demoDecode
      { new_priority_request := 2 } (BlockNumber.Number 0)
      (BlockNumber.Number 5) =
    get_priority_op_events demoChainGood2 1 demoDecode
      { new_priority_request := 2 } (BlockNumber.Number 0)
      (BlockNumber.Number 5) :=
  c9_identical_queries_identical_results demoChainGood demoChainGood2 1
    demoDecode { new_priority_request := 2 } (BlockNumber.Number 0)
    (BlockNumber.Number 5) (by rfl)

end ZkSync
